import Mathlib

/-!
Shallow embedding of the reference-counting, callback and lock core of the
mini_chromium base library (files under `src/win/...`), together with
theorems settling the specification claims about it.

Conventions:
* machine integers are `Nat` with explicit `% 2^32` where the C++ type is
  `uint32_t` and overflow matters;
* object identity (C++ pointers) is a `Nat` id into an explicit heap;
* C++ function pointers stored in type-erased slots are represented by
  opaque `Nat` ids, except the cancellation predicate, which is an
  inductive tag (`CancelFn`) so that the stored-predicate value stays
  decidable;
* code whose result is undefined (a null-pointer dereference) returns
  `Option`, with `none` for the undefined case.

Every `DCHECK`-related line of the original Chromium sources is commented
out in this fork (lines beginning with `///`), so the embedded functions
contain no assertion logic; where a claim is about those assertions, the
embedding records explicitly (as a `Bool` component) that no assertion is
compiled in.
-/

namespace MiniChromium

/-- `2^32`, the modulus of the `uint32_t` reference counter
(`ref_counted.h:136`: `mutable uint32_t ref_count_ = 0;`). -/
def u32Mod : Nat := 2 ^ 32

/-- State of `winbase::subtle::RefCountedBase` (ref_counted.h:25-145).
In this build the only data member is `ref_count_ : uint32_t`
(the `needs_adopt_ref_`, `in_dtor_` and `sequence_checker_` members at
ref_counted.h:138-142 are commented out). -/
structure RefCountedBase where
  ref_count : Nat
deriving Repr, DecidableEq

/-- `RefCountedBase(StartRefCountFromZeroTag)` (ref_counted.h:30-34):
`ref_count_` keeps its initializer 0; the constructor body is empty
(the sequence-checker call is commented out). -/
def RefCountedBase.startFromZero : RefCountedBase := ⟨0⟩

/-- `RefCountedBase(StartRefCountFromOneTag)` (ref_counted.h:36-41):
initializes `ref_count_(1)`; the `needs_adopt_ref_ = true` line is
commented out in this build. -/
def RefCountedBase.startFromOne : RefCountedBase := ⟨1⟩

/-- `RefCountedBase::HasOneRef` (ref_counted.h:27). -/
def RefCountedBase.hasOneRef (s : RefCountedBase) : Bool :=
  s.ref_count == 1

/-- `RefCountedBase::AddRefImpl` (ref_counted.h:129, the inline branch):
`++ref_count_` on a `uint32_t`, i.e. increment modulo `2^32`. -/
def RefCountedBase.addRefImpl (s : RefCountedBase) : RefCountedBase :=
  ⟨(s.ref_count + 1) % u32Mod⟩

/-- `RefCountedBase::AddRef` (ref_counted.h:52-69).  Every `DCHECK` in the
body (in-dtor check, needs-adopt-ref check, sequence check) is commented
out in this build, so the function only calls `AddRefImpl`.  The `Bool`
component records whether an assertion fired, which is constantly `false`
because none is compiled in. -/
def RefCountedBase.addRef (s : RefCountedBase) : RefCountedBase × Bool :=
  (s.addRefImpl, false)

/-- `RefCountedBase::Release` (ref_counted.h:72-92): `--ref_count_` on a
`uint32_t` (wrapping: adding `2^32 - 1` modulo `2^32`), then
`return ref_count_ == 0`.  All `DCHECK` lines in between are commented
out in this build. -/
def RefCountedBase.release (s : RefCountedBase) : RefCountedBase × Bool :=
  let c := (s.ref_count + (u32Mod - 1)) % u32Mod
  (⟨c⟩, c == 0)

/-- `RefCountedBase::Adopted` (ref_counted.h:119-124).  The body
(`DCHECK(needs_adopt_ref_); needs_adopt_ref_ = false;`) is entirely
commented out in this build, so the call changes nothing and fires no
assertion. -/
def RefCountedBase.adopted (s : RefCountedBase) : RefCountedBase × Bool :=
  (s, false)

/-- The two mutating operations a `scoped_refptr`-style owner performs on
a `RefCounted<T>` payload. -/
inductive RefOp where
  | addRef
  | release
deriving Repr, DecidableEq

/-- State of a `winbase::RefCounted<T, Traits>` payload (ref_counted.h:
307-342) as observed through its base counter, plus an instrumentation
counter of how many times `Traits::Destruct` has been invoked on it. -/
structure RCState where
  base : RefCountedBase
  destructs : Nat
deriving Repr, DecidableEq

/-- One call on a `RefCounted<T>` payload:
`RefCounted::AddRef` (ref_counted.h:318-320) forwards to the base;
`RefCounted::Release` (ref_counted.h:322-331) forwards to the base and
invokes `Traits::Destruct(this)` exactly when the base `Release` returned
`true`. -/
def RCState.step (s : RCState) : RefOp → RCState
  | .addRef => ⟨(s.base.addRef).1, s.destructs⟩
  | .release =>
      let r := s.base.release
      ⟨r.1, if r.2 then s.destructs + 1 else s.destructs⟩

/-- Run a sequence of AddRef/Release calls on a payload. -/
def RCState.run (s : RCState) (ops : List RefOp) : RCState :=
  ops.foldl RCState.step s

/-- The mathematical (unbounded) running count of a call sequence:
+1 for AddRef, -1 for Release. -/
def RefOp.applyNat : RefOp → Nat → Nat
  | .addRef, c => c + 1
  | .release, c => c - 1

/-- The mathematical running count after a whole call sequence. -/
def natRun (c : Nat) (ops : List RefOp) : Nat :=
  ops.foldl (fun n o => o.applyNat n) c

/-- A call sequence respects the reference-counting contract from count
`c`: every call is made while the object is alive (count at least 1, per
the `Release` precondition and the no-mutation-after-destruction
invariant), and the 32-bit counter never overflows. -/
def validTrace : Nat → List RefOp → Prop
  | _, [] => True
  | c, o :: rest => 1 ≤ c ∧ o.applyNat c < u32Mod ∧ validTrace (o.applyNat c) rest

theorem validTrace_nil (c : Nat) : validTrace c [] := trivial

theorem validTrace_cons (c : Nat) (o : RefOp) (rest : List RefOp) :
    validTrace c (o :: rest) ↔
      1 ≤ c ∧ o.applyNat c < u32Mod ∧ validTrace (o.applyNat c) rest := Iff.rfl

/-- On a valid trace the machine counter tracks the mathematical count,
and `Traits::Destruct` has been invoked exactly once when that count is 0
and never otherwise. -/
theorem RCState.run_valid (ops : List RefOp) (c : Nat)
    (h1 : 1 ≤ c) (h2 : c < u32Mod) (hv : validTrace c ops) :
    (RCState.run ⟨⟨c⟩, 0⟩ ops).base.ref_count = natRun c ops ∧
    (RCState.run ⟨⟨c⟩, 0⟩ ops).destructs =
      (if natRun c ops = 0 then 1 else 0) := by
  induction ops generalizing c with
  | nil =>
      refine ⟨rfl, ?_⟩
      have hn : natRun c [] = c := rfl
      have hr : (RCState.run ⟨⟨c⟩, 0⟩ []).destructs = 0 := rfl
      rw [hn, hr, if_neg (by omega)]
  | cons o rest ih =>
      rcases (validTrace_cons c o rest).mp hv with ⟨hc1, hlt, hvrest⟩
      cases o with
      | addRef =>
          have hstep : RCState.step ⟨⟨c⟩, 0⟩ RefOp.addRef = ⟨⟨c + 1⟩, 0⟩ := by
            simp only [RCState.step, RefCountedBase.addRef, RefCountedBase.addRefImpl]
            have : (c + 1) % u32Mod = c + 1 := Nat.mod_eq_of_lt hlt
            simp [this]
          have hrun : RCState.run ⟨⟨c⟩, 0⟩ (RefOp.addRef :: rest)
              = RCState.run ⟨⟨c + 1⟩, 0⟩ rest := by
            simp only [RCState.run, List.foldl_cons, hstep]
          have hnat : natRun c (RefOp.addRef :: rest) = natRun (c + 1) rest := rfl
          rw [hrun, hnat]
          exact ih (c + 1) (by omega) hlt hvrest
      | release =>
          have hcount : (c + (u32Mod - 1)) % u32Mod = c - 1 := by
            have hmod : c + (u32Mod - 1) = (c - 1) + 1 * u32Mod := by
              have hu : 1 ≤ u32Mod := by decide
              omega
            rw [hmod, Nat.add_mul_mod_self_right]
            exact Nat.mod_eq_of_lt (by omega)
          by_cases hz : c = 1
          · subst hz
            have hstep : RCState.step ⟨⟨1⟩, 0⟩ RefOp.release = ⟨⟨0⟩, 1⟩ := by
              simp only [RCState.step, RefCountedBase.release]
              simp [hcount]
            have hrest : rest = [] := by
              cases rest with
              | nil => rfl
              | cons r rs =>
                  rcases (validTrace_cons _ r rs).mp hvrest with ⟨hbad, -, -⟩
                  simp only [RefOp.applyNat] at hbad
                  omega
            subst hrest
            rw [show natRun 1 [RefOp.release] = 0 from rfl]
            simp only [RCState.run, List.foldl_cons, hstep, List.foldl_nil]
            simp
          · have hge : 2 ≤ c := by omega
            have hstep : RCState.step ⟨⟨c⟩, 0⟩ RefOp.release = ⟨⟨c - 1⟩, 0⟩ := by
              have hne : c - 1 ≠ 0 := by omega
              simp only [RCState.step, RefCountedBase.release]
              simp [hcount, hne]
            have hrun : RCState.run ⟨⟨c⟩, 0⟩ (RefOp.release :: rest)
                = RCState.run ⟨⟨c - 1⟩, 0⟩ rest := by
              simp only [RCState.run, List.foldl_cons, hstep]
            have hnat : natRun c (RefOp.release :: rest) = natRun (c - 1) rest := rfl
            rw [hrun, hnat]
            exact ih (c - 1) (by omega) (by simpa using hlt) hvrest

/-- Restricting a valid trace to a prefix keeps it valid. -/
theorem validTrace_take (ops : List RefOp) (c i : Nat) (hv : validTrace c ops) :
    validTrace c (ops.take i) := by
  induction ops generalizing c i with
  | nil => simp [List.take_nil, validTrace_nil]
  | cons o rest ih =>
      cases i with
      | zero => exact validTrace_nil c
      | succ j =>
          rcases (validTrace_cons c o rest).mp hv with ⟨hc1, hlt, hvrest⟩
          exact (validTrace_cons c o (rest.take j)).mpr
            ⟨hc1, hlt, ih (o.applyNat c) j hvrest⟩

/-!
## Bind-state / callback model

`winbase::internal::BindStateBase` and `CallbackBase`
(callback_internal.cc; the companion header
winbase/functional/callback_internal.h is not under src/, so member
layout not visible in the .cc — the `bind_state_` smart pointer and the
`BindStateBase::IsCancelled` delegation — is modelled from the spec).
The reference counter initialization `ref_count_(0)` is taken from the
crbase variant of the same class (crbase/callback_internal.h:47-48).
-/

/-- A stored cancellation predicate `bool (*)(const BindStateBase*)`.
Function pointers are represented by tags so the stored value stays
decidable; `returnFalse` is the file-local function `ReturnFalse`
(callback_internal.cc:14-16), `weakPtrAlive b` stands for a
weak-pointer predicate whose target is alive iff `b`. -/
inductive CancelFn where
  | returnFalse
  | weakPtrAlive (alive : Bool)
deriving Repr, DecidableEq

/-- Evaluate a stored cancellation predicate on its bind state (the
`const BindStateBase*` argument is unused by `ReturnFalse`). -/
def CancelFn.eval : CancelFn → Bool
  | .returnFalse => false
  | .weakPtrAlive alive => !alive

/-- One allocated `BindStateBase` (callback_internal.cc:24-34): the three
type-erased function pointers (`polymorphic_invoke_`, `destructor_`,
`is_cancelled_`), plus the intrusive reference count, initialized to 0
(crbase/callback_internal.h:47-48).  The opaque `polymorphic_invoke`
and `destructor` thunks are represented by `Nat` ids. -/
structure BindStateBase where
  polymorphic_invoke : Nat
  destructor : Nat
  is_cancelled : CancelFn
  ref_count : Nat
deriving Repr, DecidableEq

/-- The three-argument `BindStateBase` constructor
(callback_internal.cc:29-34). -/
def BindStateBase.mkCancellable (inv dtor : Nat) (cancel : CancelFn) :
    BindStateBase :=
  ⟨inv, dtor, cancel, 0⟩

/-- The two-argument `BindStateBase` constructor
(callback_internal.cc:24-27): delegates to the three-argument one with
`&ReturnFalse` as the cancellation predicate. -/
def BindStateBase.mkDefault (inv dtor : Nat) : BindStateBase :=
  BindStateBase.mkCancellable inv dtor CancelFn.returnFalse

/-- `BindStateBase::IsCancelled` — the member is declared in the missing
header; per the spec ("delegates to the bind state's cancellation
predicate") it evaluates the stored `is_cancelled_` thunk on the state. -/
def BindStateBase.isCancelledFn (b : BindStateBase) : Bool :=
  b.is_cancelled.eval

/-- The heap of allocated bind states: slot index = object identity
(the C++ pointer value); `none` = the slot's object has been destructed
via its destructor thunk (`BindStateBaseRefCountTraits::Destruct`,
callback_internal.cc:20-22). -/
structure Heap where
  slots : List (Option BindStateBase)
deriving Repr, DecidableEq

/-- The heap with nothing allocated. -/
def Heap.empty : Heap := ⟨[]⟩

/-- Look up slot `p` of a slot list (`none` past the end). -/
def lookupSlot : List (Option BindStateBase) → Nat → Option BindStateBase
  | [], _ => none
  | v :: _, 0 => v
  | _ :: rest, n + 1 => lookupSlot rest n

/-- Overwrite slot `p` of a slot list (no effect past the end). -/
def setSlot : List (Option BindStateBase) → Nat →
    Option BindStateBase → List (Option BindStateBase)
  | [], _, _ => []
  | _ :: rest, 0, v => v :: rest
  | w :: rest, n + 1, v => w :: setSlot rest n v

/-- Look up the live object at id `p` (`none` if never allocated or
already destructed). -/
def Heap.get (h : Heap) (p : Nat) : Option BindStateBase :=
  lookupSlot h.slots p

/-- Overwrite slot `p`. -/
def Heap.set (h : Heap) (p : Nat) (v : Option BindStateBase) : Heap :=
  ⟨setSlot h.slots p v⟩

/-- Allocate a fresh bind state, returning its (fresh) id. -/
def Heap.alloc (h : Heap) (b : BindStateBase) : Heap × Nat :=
  (⟨h.slots ++ [some b]⟩, h.slots.length)

/-- Modelled from the spec: `BindStateBase::AddRef` — the increment half
of the intrusive count (the defining header is not under src/; spec §4.1:
"AddRef(): increments count by one"). -/
def Heap.addRef (h : Heap) (p : Nat) : Heap :=
  match h.get p with
  | none => h
  | some b => h.set p (some { b with ref_count := b.ref_count + 1 })

/-- Modelled from the spec: `BindStateBase::Release` — decrements the
count by one and, when it reaches zero, destroys the object through its
destructor thunk (`BindStateBaseRefCountTraits::Destruct` calls
`bind_state->destructor_(bind_state)`, callback_internal.cc:20-22; spec
§3: "destroyed via its destructor thunk when the owning ref count
reaches zero"). -/
def Heap.release (h : Heap) (p : Nat) : Heap :=
  match h.get p with
  | none => h
  | some b =>
      if b.ref_count - 1 = 0 then h.set p none
      else h.set p (some { b with ref_count := b.ref_count - 1 })

/-- `winbase::internal::CallbackBase` data: an owning
`scoped_refptr<BindStateBase> bind_state_`, null = empty callback
(crbase/callback_internal.h:113 for the member; the winbase header is
not under src/). -/
structure CallbackBase where
  bind_state : Option Nat
deriving Repr, DecidableEq

/-- `CallbackBase::is_null` (crbase/callback_internal.h:76):
`bind_state_.get() == NULL`. -/
def CallbackBase.is_null (cb : CallbackBase) : Bool :=
  cb.bind_state == none

/-- Modelled from the spec: copying a `scoped_refptr`
(winbase/memory/scoped_refptr.h is not under src/; spec §3: "Copy:
increments count, aliases pointer"). -/
def scopedRefptrCopy (h : Heap) (p : Option Nat) : Heap × Option Nat :=
  match p with
  | none => (h, none)
  | some i => (h.addRef i, some i)

/-- Modelled from the spec: releasing a `scoped_refptr`'s reference on
destruction/reset (spec §3: "Destruction/reset: decrements count, nulls
pointer; triggers payload destruction if count reaches zero"). -/
def scopedRefptrRelease (h : Heap) (p : Option Nat) : Heap :=
  match p with
  | none => h
  | some i => h.release i

/-- `CallbackBaseCopyable` copy constructor (callback_internal.cc:70-72):
`bind_state_ = c.bind_state_`, a `scoped_refptr` copy.  Returns the
updated heap and the new handle. -/
def CallbackBase.copy (h : Heap) (c : CallbackBase) : Heap × CallbackBase :=
  let r := scopedRefptrCopy h c.bind_state
  (r.1, ⟨r.2⟩)

/-- `CallbackBase(CallbackBaseCopyable&&)` (callback_internal.cc:45-46):
`bind_state_(std::move(c.bind_state_))` — a `scoped_refptr` move, which
transfers the pointer, leaves the source null, and touches no reference
count (spec §3: "Move: transfers pointer, leaves source null, no count
change").  Returns the unchanged heap, the destination handle, and the
moved-from source handle. -/
def CallbackBase.move (h : Heap) (c : CallbackBase) :
    Heap × CallbackBase × CallbackBase :=
  (h, ⟨c.bind_state⟩, ⟨none⟩)

/-- `CallbackBase::Reset` (callback_internal.cc:53-57):
`bind_state_ = nullptr`, i.e. the `scoped_refptr` releases its reference
and becomes null. -/
def CallbackBase.reset (h : Heap) (c : CallbackBase) : Heap × CallbackBase :=
  (scopedRefptrRelease h c.bind_state, ⟨none⟩)

/-- `CallbackBase::IsCancelled` (callback_internal.cc:59-62):
`return bind_state_->IsCancelled();` — the guarding
`DCHECK(bind_state_)` is commented out in this build, so a null
`bind_state_` is dereferenced unconditionally; the dereference of a null
(or dangling) pointer has no defined result, modelled as `none`. -/
def CallbackBase.isCancelledCall (h : Heap) (c : CallbackBase) : Option Bool :=
  match c.bind_state with
  | none => none
  | some i =>
      match h.get i with
      | none => none
      | some b => some b.isCancelledFn

/-- `CallbackBase::EqualsInternal` (callback_internal.cc:64-66):
`bind_state_ == other.bind_state_`, raw pointer identity. -/
def CallbackBase.equalsInternal (c other : CallbackBase) : Bool :=
  c.bind_state == other.bind_state

/-- Modelled from the spec: `Bind(...)` — the bind machinery headers are
not under src/; spec §2: "the binder allocates a single ref-counted
'bind state' ...; the callback handle holds a ref-counted pointer to
that state".  Allocates the given state fresh and hands the new
callback its one owning reference. -/
def bindCallback (h : Heap) (b : BindStateBase) : Heap × CallbackBase :=
  let r := h.alloc b
  (r.1.addRef r.2, ⟨some r.2⟩)

/-!
## Lock model

`winbase::Lock` (lock.h:20-98) is, in this build (the `DCHECK` branch is
commented out), a direct forwarder to `internal::LockImpl` (lock_impl.h),
whose method bodies live in a platform .cc file that is not under src/;
the OS critical-section semantics is modelled from the spec (§4.3, §8).
Thread ids are `Nat`; the model state records which threads are inside
the critical section.
-/

/-- Modelled from the spec: the state of one OS critical section — the
set (list) of threads currently inside the protected region
(lock_impl.h:20-48 declares the interface; spec §8: "two concurrent
threads attempting Acquire on the same lock must never both be inside
the critical section simultaneously"). -/
structure LockImpl where
  inside : List Nat
deriving Repr, DecidableEq

/-- A fresh, unheld critical section (`LockImpl::LockImpl`). -/
def LockImpl.unheld : LockImpl := ⟨[]⟩

/-- Modelled from the spec: `LockImpl::Try` (declared lock_impl.h:32):
"If the lock is not held, take it and return true.  If the lock is
already held by something else, immediately return false." -/
def LockImpl.tryAcquire (s : LockImpl) (t : Nat) : LockImpl × Bool :=
  match s.inside with
  | [] => (⟨[t]⟩, true)
  | _ => (s, false)

/-- Modelled from the spec: `LockImpl::Unlock` (declared lock_impl.h:39):
releases the section; "must only be called by the lock's holder". -/
def LockImpl.unlock (s : LockImpl) (t : Nat) : LockImpl :=
  ⟨s.inside.filter (fun u => u ≠ t)⟩

/-- `Lock::Try` (lock.h:33): `return lock_.Try();` — the wrapper adds
nothing in this build. -/
def Lock.tryAcquire (s : LockImpl) (t : Nat) : LockImpl × Bool :=
  LockImpl.tryAcquire s t

/-- `Lock::Release` (lock.h:27): `lock_.Unlock();`. -/
def Lock.release (s : LockImpl) (t : Nat) : LockImpl :=
  LockImpl.unlock s t

/-- One event in an interleaved history of lock calls by threads:
thread `t` completes an `Acquire`, a `Try` (with its returned value
unrecorded here), or a `Release`. -/
inductive LockEvent where
  | acquireDone (t : Nat)
  | tryCall (t : Nat)
  | releaseCall (t : Nat)
deriving Repr, DecidableEq

/-- Modelled from the spec: the effect of one completed lock call
(§4.3: `Acquire` "blocks the calling thread until the underlying
OS-level critical section is obtained" — so an `acquireDone` event can
only fire when no thread is inside). -/
def LockImpl.stepEvent (s : LockImpl) : LockEvent → LockImpl
  | .acquireDone t => match s.inside with
      | [] => ⟨[t]⟩
      | _ => s
  | .tryCall t => (s.tryAcquire t).1
  | .releaseCall t => s.unlock t

/-- An event is enabled in a state: an `Acquire` completes only when the
section is free, and a `Release` is made only by a thread that holds the
section (lock_impl.h:37-38). -/
def LockEvent.enabled (s : LockImpl) : LockEvent → Prop
  | .acquireDone _ => s.inside = []
  | .tryCall _ => True
  | .releaseCall t => s.inside = [t]

/-- A history of lock events is valid from a state when each event is
enabled when it fires. -/
def validHistory : LockImpl → List LockEvent → Prop
  | _, [] => True
  | s, e :: rest => e.enabled s ∧ validHistory (s.stepEvent e) rest

/-- Run a history of lock events. -/
def LockImpl.runEvents (s : LockImpl) (es : List LockEvent) : LockImpl :=
  es.foldl LockImpl.stepEvent s

/-!
## Helper lemmas about the heap
-/

theorem lookupSlot_lt (l : List (Option BindStateBase)) (i : Nat)
    (b : BindStateBase) (hg : lookupSlot l i = some b) : i < l.length := by
  induction l generalizing i with
  | nil => simp [lookupSlot] at hg
  | cons v rest ih =>
      cases i with
      | zero => simp
      | succ j =>
          have := ih j (by simpa [lookupSlot] using hg)
          simp only [List.length_cons]
          omega

theorem lookupSlot_setSlot_self (l : List (Option BindStateBase)) (i : Nat)
    (v : Option BindStateBase) (hlt : i < l.length) :
    lookupSlot (setSlot l i v) i = v := by
  induction l generalizing i with
  | nil => simp at hlt
  | cons w rest ih =>
      cases i with
      | zero => rfl
      | succ j =>
          have : j < rest.length := by
            simp only [List.length_cons] at hlt
            omega
          simpa [setSlot, lookupSlot] using ih j this

theorem setSlot_length (l : List (Option BindStateBase)) (i : Nat)
    (v : Option BindStateBase) : (setSlot l i v).length = l.length := by
  induction l generalizing i with
  | nil => rfl
  | cons w rest ih =>
      cases i with
      | zero => rfl
      | succ j => simpa [setSlot] using ih j

theorem lookupSlot_append_length (l : List (Option BindStateBase))
    (v : Option BindStateBase) : lookupSlot (l ++ [v]) l.length = v := by
  induction l with
  | nil => rfl
  | cons w rest ih => simpa [lookupSlot] using ih

theorem Heap.get_set_self (h : Heap) (i : Nat) (v : Option BindStateBase)
    (hlt : i < h.slots.length) : (h.set i v).get i = v :=
  lookupSlot_setSlot_self h.slots i v hlt

theorem Heap.addRef_get (h : Heap) (i : Nat) (b : BindStateBase)
    (hg : h.get i = some b) :
    (h.addRef i).get i = some { b with ref_count := b.ref_count + 1 } := by
  have hlt := lookupSlot_lt h.slots i b hg
  simp only [Heap.addRef, hg]
  exact Heap.get_set_self h i _ hlt

/-- The fresh id handed out by `bindCallback`, and the slot count after
it. -/
theorem bindCallback_spec (h : Heap) (b : BindStateBase) :
    (bindCallback h b).2 = ⟨some h.slots.length⟩ ∧
    (bindCallback h b).1.slots.length = h.slots.length + 1 := by
  refine ⟨rfl, ?_⟩
  simp only [bindCallback, Heap.alloc, Heap.addRef, Heap.get]
  rw [lookupSlot_append_length]
  simp only [Heap.set]
  rw [setSlot_length]
  simp

/-- Any valid history of lock events keeps at most one thread inside the
critical section. -/
theorem runEvents_mutex (es : List LockEvent) (s : LockImpl)
    (hv : validHistory s es) (hs : s.inside.length ≤ 1) :
    (LockImpl.runEvents s es).inside.length ≤ 1 := by
  induction es generalizing s with
  | nil => exact hs
  | cons e rest ih =>
      obtain ⟨hen, hrest⟩ := hv
      have hstep : (s.stepEvent e).inside.length ≤ 1 := by
        cases e with
        | acquireDone t =>
            simp only [LockEvent.enabled] at hen
            simp [LockImpl.stepEvent, hen]
        | tryCall t =>
            simp only [LockImpl.stepEvent, LockImpl.tryAcquire]
            cases hins : s.inside with
            | nil => simp
            | cons u us => simpa [hins] using hs
        | releaseCall t =>
            simp only [LockImpl.stepEvent, LockImpl.unlock]
            calc (s.inside.filter (fun u => u ≠ t)).length
                ≤ s.inside.length := List.length_filter_le _ _
              _ ≤ 1 := hs
      exact ih (s.stepEvent e) hrest hstep

/-!
## The claims
-/

/-- C1: for every sequence of AddRef/Release calls on a `RefCounted<T>`
payload starting from count `N ≥ 1` that respects the reference-counting
contract (each call made while the count is at least 1, no 32-bit
overflow), at every prefix of the sequence `Traits::Destruct` has been
invoked exactly once if the running count has reached 0 and not at all
otherwise — so the payload is destroyed iff, exactly at the step when,
the running count reaches 0, and exactly once over the whole sequence. -/
theorem claim_C1_destruct_iff_count_zero (N : Nat) (ops : List RefOp)
    (hN : 1 ≤ N) (hNlt : N < u32Mod) (hv : validTrace N ops) (i : Nat) :
    (RCState.run ⟨⟨N⟩, 0⟩ (ops.take i)).destructs
        = (if natRun N (ops.take i) = 0 then 1 else 0) ∧
    (RCState.run ⟨⟨N⟩, 0⟩ (ops.take i)).base.ref_count
        = natRun N (ops.take i) := by
  have hvt := validTrace_take ops N i hv
  have h := RCState.run_valid (ops.take i) N hN hNlt hvt
  exact ⟨h.2, h.1⟩

theorem claim_C1_witness :
    (1 ≤ 1 ∧ 1 < u32Mod ∧ validTrace 1 [RefOp.release]) ∧
    ((RCState.run ⟨⟨1⟩, 0⟩ ([RefOp.release].take 1)).destructs
        = (if natRun 1 ([RefOp.release].take 1) = 0 then 1 else 0) ∧
     (RCState.run ⟨⟨1⟩, 0⟩ ([RefOp.release].take 1)).base.ref_count
        = natRun 1 ([RefOp.release].take 1)) :=
  ⟨⟨Nat.le_refl 1, by decide, ⟨Nat.le_refl 1, by decide, trivial⟩⟩,
   claim_C1_destruct_iff_count_zero 1 [RefOp.release] (Nat.le_refl 1)
     (by decide) ⟨Nat.le_refl 1, by decide, trivial⟩ 1⟩

/-- C2: on a `RefCountedBase` whose count is `c ≥ 1`, `Release()`
decrements the count by exactly one and returns `true` iff the new count
is zero; `AddRef()` increments the count by exactly one and fires no
assertion (always succeeds). -/
theorem claim_C2_release_addref_arithmetic (c : Nat)
    (h1 : 1 ≤ c) (h2 : c < u32Mod) :
    ((RefCountedBase.release ⟨c⟩).1.ref_count = c - 1 ∧
     ((RefCountedBase.release ⟨c⟩).2 = true ↔ c - 1 = 0)) ∧
    ∀ d : Nat, d + 1 < u32Mod →
      (RefCountedBase.addRef ⟨d⟩).1.ref_count = d + 1 ∧
      (RefCountedBase.addRef ⟨d⟩).2 = false := by
  constructor
  · have hcount : (c + (u32Mod - 1)) % u32Mod = c - 1 := by
      have hmod : c + (u32Mod - 1) = (c - 1) + 1 * u32Mod := by
        have hu : 1 ≤ u32Mod := by decide
        omega
      rw [hmod, Nat.add_mul_mod_self_right]
      exact Nat.mod_eq_of_lt (by omega)
    constructor
    · simp [RefCountedBase.release, hcount]
    · simp [RefCountedBase.release, hcount]
  · intro d hd
    refine ⟨?_, rfl⟩
    simp [RefCountedBase.addRef, RefCountedBase.addRefImpl, Nat.mod_eq_of_lt hd]

theorem claim_C2_witness :
    (1 ≤ 2 ∧ 2 < u32Mod ∧ 5 + 1 < u32Mod) ∧
    (RefCountedBase.release ⟨2⟩).1.ref_count = 1 ∧
    ((RefCountedBase.release ⟨2⟩).2 = true ↔ (2 : Nat) - 1 = 0) ∧
    (RefCountedBase.addRef ⟨5⟩).1.ref_count = 6 ∧
    (RefCountedBase.addRef ⟨5⟩).2 = false := by
  have h := claim_C2_release_addref_arithmetic 2 (by decide) (by decide)
  exact ⟨⟨by decide, by decide, by decide⟩, h.1.1, h.1.2,
    (h.2 5 (by decide)).1, (h.2 5 (by decide)).2⟩

/-- C3 counterexample: in this build, constructing a start-from-one
payload and taking a reference through the normal (non-adopting)
`AddRef` path fires no assertion at all — not "exactly once" — because
the whole needs-adoption `DCHECK` machinery is commented out
(ref_counted.h:57-66, 119-124, 138-142). -/
theorem claim_C3_counterexample :
    (RefCountedBase.startFromOne.addRef).2 = false ∧
    ¬ ((RefCountedBase.startFromOne.addRef).2 = true) := by
  refine ⟨rfl, ?_⟩
  intro hcontra
  simp [RefCountedBase.addRef] at hcontra

/-- C3 amended: in this build the needs-adoption flag and its assertion
are compiled out: `AddRef` on a start-from-one payload never trips an
assertion whether or not the payload was first wrapped through the
adopting factory — it just increments the count — and `Adopted()` is a
no-op that changes nothing and also fires nothing. -/
theorem claim_C3_no_adoption_assertion :
    ((RefCountedBase.startFromOne.addRef).2 = false ∧
     (RefCountedBase.startFromOne.addRef).1.ref_count = 2) ∧
    ((RefCountedBase.startFromOne.adopted).1 = RefCountedBase.startFromOne ∧
     (RefCountedBase.startFromOne.adopted).2 = false ∧
     ((RefCountedBase.startFromOne.adopted).1.addRef).2 = false ∧
     ((RefCountedBase.startFromOne.adopted).1.addRef).1.ref_count = 2) := by
  refine ⟨⟨rfl, ?_⟩, rfl, rfl, rfl, ?_⟩ <;> decide

/-- C9: the counter is a `uint32_t` and `Release()` uses wrapping
arithmetic: calling `Release()` on a count of 0 (violating the
`count ≥ 1` precondition) wraps the count to `2^32 - 1` and returns
`false`, so `RefCounted::Release` invokes no destruction and reports no
error. -/
theorem claim_C9_release_at_zero_wraps :
    (RefCountedBase.release ⟨0⟩).1.ref_count = 2 ^ 32 - 1 ∧
    (RefCountedBase.release ⟨0⟩).2 = false ∧
    (RCState.step ⟨⟨0⟩, 0⟩ RefOp.release).destructs = 0 ∧
    (RCState.step ⟨⟨0⟩, 0⟩ RefOp.release).base.ref_count = 2 ^ 32 - 1 := by
  refine ⟨?_, ?_, ?_, ?_⟩ <;> decide

/-- C4: copying a non-null callback handle increments the referenced
bind state's count by exactly one and leaves both handles referencing
the identical object (equal by identity); moving transfers the pointer
to the destination with no heap (hence no count) change and leaves the
source handle null. -/
theorem claim_C4_copy_move_laws (h : Heap) (i : Nat) (b : BindStateBase)
    (hget : h.get i = some b) :
    ((CallbackBase.copy h ⟨some i⟩).1.get i
        = some { b with ref_count := b.ref_count + 1 } ∧
     (CallbackBase.copy h ⟨some i⟩).2 = ⟨some i⟩ ∧
     CallbackBase.equalsInternal ⟨some i⟩ (CallbackBase.copy h ⟨some i⟩).2
        = true) ∧
    ((CallbackBase.move h ⟨some i⟩).1 = h ∧
     (CallbackBase.move h ⟨some i⟩).2.1 = ⟨some i⟩ ∧
     (CallbackBase.move h ⟨some i⟩).2.2.bind_state = none) := by
  refine ⟨⟨?_, rfl, ?_⟩, rfl, rfl, rfl⟩
  · simp only [CallbackBase.copy, scopedRefptrCopy]
    exact Heap.addRef_get h i b hget
  · simp [CallbackBase.equalsInternal, CallbackBase.copy, scopedRefptrCopy]

theorem claim_C4_witness :
    ((Heap.mk [some (BindStateBase.mkDefault 7 8)]).get 0
        = some (BindStateBase.mkDefault 7 8)) ∧
    ((CallbackBase.copy (Heap.mk [some (BindStateBase.mkDefault 7 8)])
          ⟨some 0⟩).1.get 0
        = some { BindStateBase.mkDefault 7 8 with
                   ref_count := (BindStateBase.mkDefault 7 8).ref_count + 1 } ∧
     (CallbackBase.copy (Heap.mk [some (BindStateBase.mkDefault 7 8)])
          ⟨some 0⟩).2 = ⟨some 0⟩ ∧
     CallbackBase.equalsInternal ⟨some 0⟩
        (CallbackBase.copy (Heap.mk [some (BindStateBase.mkDefault 7 8)])
          ⟨some 0⟩).2 = true) ∧
    ((CallbackBase.move (Heap.mk [some (BindStateBase.mkDefault 7 8)])
          ⟨some 0⟩).1 = Heap.mk [some (BindStateBase.mkDefault 7 8)] ∧
     (CallbackBase.move (Heap.mk [some (BindStateBase.mkDefault 7 8)])
          ⟨some 0⟩).2.1 = ⟨some 0⟩ ∧
     (CallbackBase.move (Heap.mk [some (BindStateBase.mkDefault 7 8)])
          ⟨some 0⟩).2.2.bind_state = none) :=
  ⟨by decide,
   (claim_C4_copy_move_laws (Heap.mk [some (BindStateBase.mkDefault 7 8)]) 0
      (BindStateBase.mkDefault 7 8) (by decide)).1,
   (claim_C4_copy_move_laws (Heap.mk [some (BindStateBase.mkDefault 7 8)]) 0
      (BindStateBase.mkDefault 7 8) (by decide)).2⟩

/-- C5: two callback handles compare equal iff they hold the identical
bind-state reference, and two callbacks constructed by two independent
bind operations over the very same captured state value reference
distinct instances and hence compare unequal. -/
theorem claim_C5_equality_is_reference_identity (a c : CallbackBase)
    (h : Heap) (s : BindStateBase) :
    (CallbackBase.equalsInternal a c = true ↔ a.bind_state = c.bind_state) ∧
    CallbackBase.equalsInternal (bindCallback h s).2
        (bindCallback (bindCallback h s).1 s).2 = false := by
  constructor
  · simp [CallbackBase.equalsInternal]
  · have h1 := bindCallback_spec h s
    have h2 := bindCallback_spec (bindCallback h s).1 s
    rw [h1.1, h2.1, h1.2]
    simp [CallbackBase.equalsInternal]

/-- C6: `is_null()` is true iff the handle references no bind state;
after `Reset()` the handle is null, and when the handle was the owner of
a live reference the underlying bind state's count has been decremented
by one (the state being destructed through its thunk when that
decrement reaches zero). -/
theorem claim_C6_is_null_and_reset (cb : CallbackBase) (h : Heap)
    (i : Nat) (b : BindStateBase) :
    (cb.is_null = true ↔ cb.bind_state = none) ∧
    (CallbackBase.reset h cb).2.is_null = true ∧
    (cb.bind_state = some i → h.get i = some b →
      (2 ≤ b.ref_count →
        (CallbackBase.reset h cb).1.get i
          = some { b with ref_count := b.ref_count - 1 }) ∧
      (b.ref_count = 1 → (CallbackBase.reset h cb).1.get i = none)) := by
  refine ⟨by simp [CallbackBase.is_null], rfl, ?_⟩
  intro hcb hget
  have hlt := lookupSlot_lt h.slots i b hget
  constructor
  · intro h2
    have hne : ¬ (b.ref_count - 1 = 0) := by omega
    simp only [CallbackBase.reset, hcb, scopedRefptrRelease, Heap.release,
      hget, if_neg hne]
    exact Heap.get_set_self h i _ hlt
  · intro h1
    simp only [CallbackBase.reset, hcb, scopedRefptrRelease, Heap.release,
      hget, h1]
    simpa using Heap.get_set_self h i none hlt

theorem claim_C6_witness :
    ((CallbackBase.mk (some 0)).bind_state = some 0 ∧
     (Heap.mk [some { BindStateBase.mkDefault 7 8 with ref_count := 2 }]).get 0
        = some { BindStateBase.mkDefault 7 8 with ref_count := 2 } ∧
     2 ≤ ({ BindStateBase.mkDefault 7 8 with ref_count := 2 }).ref_count) ∧
    ((CallbackBase.mk (some 0)).is_null = true ↔
        (CallbackBase.mk (some 0)).bind_state = none) ∧
    (CallbackBase.reset
        (Heap.mk [some { BindStateBase.mkDefault 7 8 with ref_count := 2 }])
        ⟨some 0⟩).2.is_null = true ∧
    (CallbackBase.reset
        (Heap.mk [some { BindStateBase.mkDefault 7 8 with ref_count := 2 }])
        ⟨some 0⟩).1.get 0
      = some { BindStateBase.mkDefault 7 8 with ref_count := 2 - 1 } := by
  have h := claim_C6_is_null_and_reset ⟨some 0⟩
    (Heap.mk [some { BindStateBase.mkDefault 7 8 with ref_count := 2 }]) 0
    { BindStateBase.mkDefault 7 8 with ref_count := 2 }
  exact ⟨⟨rfl, rfl, by decide⟩, h.1, h.2.1,
    (h.2.2 rfl rfl).1 (by decide)⟩

/-- C7: a bind state built by the two-argument constructor (no explicit
cancellation predicate) has the default `&ReturnFalse` predicate
installed, and `IsCancelled()` on any non-null callback referencing such
a state returns `false`. -/
theorem claim_C7_default_cancellation (inv dtor : Nat) (h : Heap)
    (cb : CallbackBase) (i : Nat) (b : BindStateBase)
    (hcb : cb.bind_state = some i) (hget : h.get i = some b)
    (hdef : b.is_cancelled = (BindStateBase.mkDefault inv dtor).is_cancelled) :
    (BindStateBase.mkDefault inv dtor).is_cancelled = CancelFn.returnFalse ∧
    cb.is_null = false ∧
    cb.isCancelledCall h = some false := by
  refine ⟨rfl, ?_, ?_⟩
  · simp [CallbackBase.is_null, hcb]
  · simp [CallbackBase.isCancelledCall, hcb, hget, BindStateBase.isCancelledFn,
      hdef, BindStateBase.mkDefault, BindStateBase.mkCancellable, CancelFn.eval]

theorem claim_C7_witness :
    ((CallbackBase.mk (some 0)).bind_state = some 0 ∧
     (Heap.mk [some (BindStateBase.mkDefault 7 8)]).get 0
        = some (BindStateBase.mkDefault 7 8) ∧
     (BindStateBase.mkDefault 7 8).is_cancelled
        = (BindStateBase.mkDefault 7 8).is_cancelled) ∧
    (BindStateBase.mkDefault 7 8).is_cancelled = CancelFn.returnFalse ∧
    (CallbackBase.mk (some 0)).is_null = false ∧
    (CallbackBase.mk (some 0)).isCancelledCall
        (Heap.mk [some (BindStateBase.mkDefault 7 8)]) = some false :=
  ⟨⟨rfl, rfl, rfl⟩,
   claim_C7_default_cancellation 7 8 (Heap.mk [some (BindStateBase.mkDefault 7 8)])
     ⟨some 0⟩ 0 (BindStateBase.mkDefault 7 8) rfl rfl rfl⟩

/-- C8: over any valid interleaved history of completed `Acquire`, `Try`
and `Release` calls from the unheld state, at most one thread is ever
inside the critical section; while a thread holds the lock, `Try` by
another thread returns `false` and leaves the lock untouched; after the
holder's `Release`, `Try` returns `true`. -/
theorem claim_C8_lock_mutual_exclusion (es : List LockEvent)
    (hv : validHistory LockImpl.unheld es) (s : LockImpl) (t1 t2 : Nat)
    (hheld : s.inside = [t1]) :
    (LockImpl.runEvents LockImpl.unheld es).inside.length ≤ 1 ∧
    (Lock.tryAcquire s t2).2 = false ∧
    (Lock.tryAcquire s t2).1 = s ∧
    (Lock.tryAcquire (Lock.release s t1) t2).2 = true := by
  refine ⟨runEvents_mutex es LockImpl.unheld hv (by simp [LockImpl.unheld]),
    ?_, ?_, ?_⟩
  · simp [Lock.tryAcquire, LockImpl.tryAcquire, hheld]
  · simp [Lock.tryAcquire, LockImpl.tryAcquire, hheld]
  · simp [Lock.tryAcquire, Lock.release, LockImpl.unlock, LockImpl.tryAcquire,
      hheld]

theorem claim_C8_witness :
    (validHistory LockImpl.unheld [LockEvent.acquireDone 0] ∧
     (LockImpl.mk [0]).inside = [0]) ∧
    (LockImpl.runEvents LockImpl.unheld [LockEvent.acquireDone 0]).inside.length
        ≤ 1 ∧
    (Lock.tryAcquire (LockImpl.mk [0]) 1).2 = false ∧
    (Lock.tryAcquire (LockImpl.mk [0]) 1).1 = LockImpl.mk [0] ∧
    (Lock.tryAcquire (Lock.release (LockImpl.mk [0]) 0) 1).2 = true :=
  ⟨⟨⟨rfl, trivial⟩, rfl⟩,
   claim_C8_lock_mutual_exclusion [LockEvent.acquireDone 0]
     ⟨rfl, trivial⟩ (LockImpl.mk [0]) 0 1 rfl⟩

/-- C10: `IsCancelled()` is well-defined only for non-null callbacks: a
null bind-state reference is dereferenced unconditionally (the guarding
debug check is commented out), which has no defined result; whenever the
call does produce a result, the callback was non-null. -/
theorem claim_C10_isCancelled_requires_nonnull (h : Heap)
    (cb : CallbackBase) :
    (cb.bind_state = none → cb.isCancelledCall h = none) ∧
    ((cb.isCancelledCall h).isSome = true → cb.is_null = false) := by
  constructor
  · intro hnull
    simp [CallbackBase.isCancelledCall, hnull]
  · intro hsome
    cases hcb : cb.bind_state with
    | none => simp [CallbackBase.isCancelledCall, hcb] at hsome
    | some i => simp [CallbackBase.is_null, hcb]

theorem claim_C10_witness :
    ((CallbackBase.mk none).bind_state = none) ∧
    (CallbackBase.mk none).isCancelledCall Heap.empty = none :=
  ⟨rfl, (claim_C10_isCancelled_requires_nonnull Heap.empty ⟨none⟩).1 rfl⟩

end MiniChromium
